import Mathlib

set_option maxRecDepth 16384

/-!
# Shallow embedding of the Product Management System (`script.js`)

The repository is a client-side catalog editor built around a single class
`ProductManager` owning a product collection and session state.  This file
embeds the state-manipulating core of `script.js` (validation, form submit,
add/update/delete, search with debounce, filtering, pagination, page change,
view switch) as executable Lean definitions and proves properties about them.

DOM reads/writes, rendering to HTML strings, scrolling and notifications are
side effects on the presentation layer and carry no collection/session state;
they are omitted.  Time (`Date.now()`) and the user's confirmation dialog
(`confirm(...)`) are modelled as explicit parameters.  JavaScript strings are
modelled as `List Char`.
-/

/-- A JS whitespace character as recognised by `trim` (common ASCII subset;
the exotic Unicode space code points are not used anywhere in the program). -/
def jsIsSpace (c : Char) : Bool :=
  c = ' ' || c = '\t' || c = '\n' || c = '\r'

/-- JS `String.prototype.trim()`: drop whitespace from both ends. -/
def jsTrim (s : List Char) : List Char :=
  ((s.dropWhile jsIsSpace).reverse.dropWhile jsIsSpace).reverse

/-- JS `String.prototype.toLowerCase()` (ASCII; the program only lowercases
names and search terms typed by the user). -/
def jsToLower (s : List Char) : List Char :=
  s.map Char.toLower

/-- Whether `needle` occurs at the start of `hay`. -/
def prefixAt : List Char → List Char → Bool
  | [], _ => true
  | _ :: _, [] => false
  | c :: cs, d :: ds => c = d && prefixAt cs ds

/-- JS `String.prototype.includes(needle)`: substring containment. -/
def containsSub (hay needle : List Char) : Bool :=
  prefixAt needle hay ||
    match hay with
    | [] => false
    | _ :: rest => containsSub rest needle

/-- Numeric value of a digit string (most significant first). -/
def digitsToNat (l : List Char) : Nat :=
  l.foldl (fun a c => 10 * a + (c.toNat - 48)) 0

/-- Split an optional leading sign off a string. -/
def splitSign : List Char → Int × List Char
  | '-' :: r => (-1, r)
  | '+' :: r => (1, r)
  | r => (1, r)

/-- JS `parseFloat`: skip leading whitespace, optional sign, integer digits,
optional fraction digits after a dot; `none` models `NaN` (no digits at all).
Exponent notation and `Infinity` literals are not modelled: the program only
feeds it form-field text for prices. -/
def jsParseFloat (raw : List Char) : Option ℚ :=
  let s := raw.dropWhile jsIsSpace
  let (sign, rest) := splitSign s
  let intDigits := rest.takeWhile Char.isDigit
  let afterInt := rest.dropWhile Char.isDigit
  let fracDigits :=
    match afterInt with
    | '.' :: r => r.takeWhile Char.isDigit
    | _ => []
  if intDigits = [] && fracDigits = [] then none
  else
    some ((sign : ℚ) *
      ((digitsToNat intDigits : ℚ) +
        (digitsToNat fracDigits : ℚ) / (10 : ℚ) ^ fracDigits.length))

/-- JS `parseInt` (no radix argument, decimal input): skip leading
whitespace, optional sign, then the longest digit run; `none` models `NaN`.
The `0x` hex form is not modelled: the program only feeds it stock text. -/
def jsParseInt (raw : List Char) : Option Int :=
  let s := raw.dropWhile jsIsSpace
  let (sign, rest) := splitSign s
  let ds := rest.takeWhile Char.isDigit
  if ds = [] then none else some (sign * digitsToNat ds)

/-- A product record as built by `handleFormSubmit`. -/
structure Product where
  id : String
  name : List Char
  price : ℚ
  category : List Char
  stock : Int
  description : List Char
  image : List Char
  deriving DecidableEq, Repr

/-- The raw form-field text of a draft (`FormData` values). -/
structure Draft where
  name : List Char
  price : List Char
  category : List Char
  stock : List Char
  description : List Char
  deriving DecidableEq, Repr

/-- The view mode `currentView`: `'list'` or `'card'`. -/
inductive View where
  | list
  | card
  deriving DecidableEq, Repr

/-- The form fields of the product form. -/
inductive FieldName where
  | name
  | price
  | category
  | stock
  | description
  deriving DecidableEq, Repr

/-- The state owned by the `ProductManager` class.  `debounceTimer` models
the single timer slot: `true` iff a debounced search application is pending.
`itemsPerPage` is the constant 6 set in the constructor and never mutated,
so it is a top-level constant below rather than a field. -/
structure ProductManager where
  products : List Product
  currentView : View
  currentPage : Nat
  searchTerm : List Char
  editingId : Option String
  debounceTimer : Bool
  deriving DecidableEq, Repr

/-- The constant `this.itemsPerPage = 6`. -/
def itemsPerPage : Nat := 6

/-- The constructor's initial state. -/
def initState : ProductManager :=
  { products := []
    currentView := .list
    currentPage := 1
    searchTerm := []
    editingId := none
    debounceTimer := false }

/-- The method `validateField`: the pure pass/fail part of per-field validation
(the error-message DOM writes are presentation only).  `required` mirrors
the field's HTML `required` attribute. -/
def validateField (fieldName : FieldName) (required : Bool)
    (raw : List Char) : Bool :=
  let value := jsTrim raw
  if required && value.isEmpty then false
  else if fieldName = .price && !value.isEmpty then
    match jsParseFloat value with
    | none => false
    | some price => decide (0 ≤ price)
  else if fieldName = .stock && !value.isEmpty then
    match jsParseInt value with
    | none => false
    | some stock => decide (0 ≤ stock)
  else true

/-- The method `validateForm` runs `validateField` over the required fields.
Modelled from the spec: the HTML file that carries the `required`
attributes is not in the repository snapshot; per the spec the required
fields are name, price, category and stock (description is optional). -/
def validateForm (d : Draft) : Bool :=
  validateField .name true d.name &&
  validateField .price true d.price &&
  validateField .category true d.category &&
  validateField .stock true d.stock

/-- The fixed placeholder image URL assigned to every product. -/
def dummyImage : List Char :=
  String.toList (r"https://images.unsplash.com/photo-1633174524827-db00a6b7bc74?w=500&auto=format&fit=crop&q=60&ixlib=rb-4.1.0&ixid=M3wxMjA3fDB8MHxzZWFyY2h8M3x8YW1hem9ufGVufDB8fDB8fHww")

/-- The `productData` object literal built in `handleFormSubmit`, given the
id it will carry. `stock` is `parseInt(...) || 0` (`NaN` collapses to 0). -/
def draftToProduct (pid : String) (d : Draft) : Product :=
  { id := pid
    name := jsTrim d.name
    price := (jsParseFloat d.price).getD 0
    category := d.category
    stock := (jsParseInt d.stock).getD 0
    description := jsTrim d.description
    image := dummyImage }

/-- The method `addProduct`: push onto the collection (render omitted). -/
def addProduct (s : ProductManager) (p : Product) : ProductManager :=
  { s with products := s.products ++ [p] }

/-- The method `updateProduct`: find the index of the product with the same id and
replace it in place; no-op when the id is absent (`index === -1`). -/
def updateProduct (s : ProductManager) (p : Product) : ProductManager :=
  match s.products.findIdx? (fun q => q.id = p.id) with
  | some i => { s with products := s.products.set i p }
  | none => s

/-- The method `deleteProduct`: behind a `confirm(...)` dialog (modelled as the
`confirmed` argument), keep exactly the products whose id differs. -/
def deleteProduct (s : ProductManager) (confirmed : Bool)
    (id : String) : ProductManager :=
  if confirmed then { s with products := s.products.filter (fun p => p.id ≠ id) }
  else s

/-- The method `editProduct`: silently return when the id is absent, otherwise record
it as the editing id (the form-filling DOM writes are presentation only). -/
def editProduct (s : ProductManager) (id : String) : ProductManager :=
  match s.products.find? (fun p => p.id = id) with
  | none => s
  | some _ => { s with editingId := some id }

/-- The method `resetForm`: clears the form and the editing id. -/
def resetForm (s : ProductManager) : ProductManager :=
  { s with editingId := none }

/-- The method `cancelEdit`: null the editing id, then `resetForm`. -/
def cancelEdit (s : ProductManager) : ProductManager :=
  resetForm { s with editingId := none }

/-- The method `handleFormSubmit`: reject when validation fails, otherwise build
`productData` with `this.editingId || Date.now().toString()` as id, update
when editing and add when creating, then reset the form.  `now` is the
`Date.now()` timestamp. -/
def handleFormSubmit (s : ProductManager) (now : Nat)
    (d : Draft) : ProductManager :=
  if !validateForm d then s
  else
    let pid := match s.editingId with
      | some i => i
      | none => Nat.repr now
    let productData := draftToProduct pid d
    let s' := match s.editingId with
      | some _ => updateProduct s productData
      | none => addProduct s productData
    resetForm s'

/-- The method `handleSearch`: store the lowercased, trimmed term immediately; clear
any pending timer and schedule a fresh one (the page reset happens only
when that timer fires, see `debounceFire`). -/
def handleSearch (s : ProductManager) (term : List Char) : ProductManager :=
  { s with searchTerm := jsTrim (jsToLower term), debounceTimer := true }

/-- The debounce timer callback: when a timer is pending, reset the page to
1 and re-render (the render itself is presentation only). -/
def debounceFire (s : ProductManager) : ProductManager :=
  if s.debounceTimer then { s with currentPage := 1, debounceTimer := false }
  else s

/-- The method `getFilteredProducts`: the whole collection on an empty term, otherwise
the products whose lowercased name contains the stored term. -/
def getFilteredProducts (s : ProductManager) : List Product :=
  if s.searchTerm.isEmpty then s.products
  else s.products.filter (fun p => containsSub (jsToLower p.name) s.searchTerm)

/-- JS `Array.prototype.slice(start, stop)` for in-range indices. -/
def jsSlice (l : List Product) (start stop : Nat) : List Product :=
  (l.take stop).drop start

/-- JS `Math.ceil(n / k)` on naturals (`k > 0`). -/
def jsCeilDiv (n k : Nat) : Nat := (n + k - 1) / k

/-- The record returned by `getPaginatedProducts`. -/
structure Paginated where
  products : List Product
  total : Nat
  totalPages : Nat
  deriving DecidableEq, Repr

/-- The method `getPaginatedProducts`: slice the filtered list for the page. -/
def getPaginatedProducts (s : ProductManager) : Paginated :=
  let filtered := getFilteredProducts s
  let startIndex := (s.currentPage - 1) * itemsPerPage
  let endIndex := startIndex + itemsPerPage
  { products := jsSlice filtered startIndex endIndex
    total := filtered.length
    totalPages := jsCeilDiv filtered.length itemsPerPage }

/-- The method `changePage`: accept the page only when `1 <= page <= totalPages` for
the current filtered set.  The argument is an integer because the UI could
hand any number in. -/
def changePage (s : ProductManager) (page : Int) : ProductManager :=
  let totalPages := (getPaginatedProducts s).totalPages
  if 1 ≤ page ∧ page ≤ (totalPages : Int) then
    { s with currentPage := page.toNat }
  else s

/-- The method `switchView` (the button-state DOM writes are presentation only). -/
def switchView (s : ProductManager) (v : View) : ProductManager :=
  { s with currentView := v }

/-- A collection-mutating operation, as reachable through the UI:
`add` is a form submit in create mode at clock value `now`, `update` is a
direct `updateProduct` call, `delete` a (possibly unconfirmed) delete. -/
inductive CatalogOp where
  | add (now : Nat) (d : Draft)
  | update (p : Product)
  | delete (confirmed : Bool) (id : String)
  deriving DecidableEq, Repr

/-- Run one catalog operation. -/
def applyOp (s : ProductManager) : CatalogOp → ProductManager
  | .add now d => handleFormSubmit { s with editingId := none } now d
  | .update p => updateProduct s p
  | .delete c i => deleteProduct s c i

/-- Run a sequence of catalog operations. -/
def runOps (s : ProductManager) (ops : List CatalogOp) : ProductManager :=
  ops.foldl applyOp s

/-- The ids currently in the collection. -/
def ids (s : ProductManager) : List String :=
  s.products.map Product.id

/-- Every `add` along the run carries a timestamp whose string form is not
already an id in the collection at that moment (true in practice whenever
the millisecond clock has ticked between adds). -/
def freshRun (s : ProductManager) : List CatalogOp → Bool
  | [] => true
  | op :: rest =>
    (match op with
     | .add now _ => !(ids s).contains (Nat.repr now)
     | _ => true) &&
    freshRun (applyOp s op) rest

/-- One step of the search-debounce session: a keystroke runs
`handleSearch` (which cancels and reschedules the single pending timer); a
timer firing, when one is pending, resets the page and performs the one
derived-view recomputation.  `renderCount` counts those recomputations and
`lastApplied` records the term the last one used. -/
inductive SearchEvent where
  | keystroke (term : List Char)
  | timerFire
  deriving DecidableEq, Repr

/-- Search-session state: the manager plus recomputation bookkeeping. -/
structure SearchSession where
  pm : ProductManager
  renderCount : Nat
  lastApplied : Option (List Char)
  deriving DecidableEq, Repr

/-- Step the search session by one event. -/
def searchStep (t : SearchSession) : SearchEvent → SearchSession
  | .keystroke term => { t with pm := handleSearch t.pm term }
  | .timerFire =>
    if t.pm.debounceTimer then
      { pm := { t.pm with currentPage := 1, debounceTimer := false }
        renderCount := t.renderCount + 1
        lastApplied := some t.pm.searchTerm }
    else t

/-- Run a list of search-session events. -/
def runSearch (t : SearchSession) (es : List SearchEvent) : SearchSession :=
  es.foldl searchStep t

/-! ### Concrete states used to instantiate the theorems -/

/-- A draft that passes validation. -/
def vd : Draft :=
  { name := ['a'], price := ['1'], category := ['c'], stock := ['0'],
    description := [] }

/-- A draft whose price field reads "-5". -/
def dneg : Draft :=
  { name := ['a'], price := ['-', '5'], category := ['c'], stock := ['0'],
    description := [] }

/-- A product named "Widget" with id "1". -/
def widget : Product :=
  { id := "1", name := ['W', 'i', 'd', 'g', 'e', 't'], price := 1,
    category := ['c'], stock := 1, description := [], image := dummyImage }

/-- A state holding just the Widget product. -/
def sW : ProductManager := { initState with products := [widget] }

/-- A small distinct product with id `Nat.repr i`. -/
def mkP (i : Nat) : Product :=
  { id := Nat.repr i, name := ['p'], price := 1, category := ['c'], stock := 1,
    description := [], image := dummyImage }

/-- A state holding seven products (ids "0" to "6"). -/
def s7 : ProductManager := { initState with products := (List.range 7).map mkP }

/-- The seven-product state after `changePage(2)`. -/
def s7p2 : ProductManager := changePage s7 2

/-- A state already holding a product with id "5". -/
def s5 : ProductManager := { initState with products := [mkP 5] }

/-- A fresh search session over the initial state. -/
def sess0 : SearchSession :=
  { pm := initState, renderCount := 0, lastApplied := none }

/-! ### Helper lemmas -/

/-- A failed validation leaves the submit untouched. -/
theorem submit_invalid_eq (s : ProductManager) (now : Nat) (d : Draft)
    (hv : validateForm d = false) : handleFormSubmit s now d = s := by
  simp [handleFormSubmit, hv]

/-- A valid submit in create mode appends the draft with the clock id. -/
theorem submit_create_eq (s : ProductManager) (now : Nat) (d : Draft)
    (hv : validateForm d = true) (hc : s.editingId = none) :
    handleFormSubmit s now d =
      resetForm (addProduct s (draftToProduct (Nat.repr now) d)) := by
  simp [handleFormSubmit, hv, hc]

/-- A valid submit in edit mode updates using the editing id. -/
theorem submit_edit_eq (s : ProductManager) (now : Nat) (d : Draft) (i : String)
    (hv : validateForm d = true) (hc : s.editingId = some i) :
    handleFormSubmit s now d =
      resetForm (updateProduct s (draftToProduct i d)) := by
  simp [handleFormSubmit, hv, hc]

/-- Replacing the element found by `findIdx?` (the first one carrying the
given id) with a product carrying that same id leaves the id list as it
was; stated with the running start index `j` of `findIdx?`. -/
theorem set_found_map_id (p : Product) :
    ∀ (l : List Product) (j i : Nat),
      List.findIdx? (fun q => q.id = p.id) l j = some i →
      j ≤ i ∧ (l.set (i - j) p).map Product.id = l.map Product.id := by
  intro l
  induction l with
  | nil => intro j i h; simp [List.findIdx?] at h
  | cons q rest ih =>
    intro j i h
    rw [List.findIdx?_cons] at h
    by_cases hq : q.id = p.id
    · rw [if_pos (by simp [hq])] at h
      injection h with h'
      subst h'
      refine ⟨le_rfl, ?_⟩
      simp [hq]
    · rw [if_neg (by simp [hq])] at h
      obtain ⟨h1, h2⟩ := ih (j + 1) i h
      refine ⟨by omega, ?_⟩
      have hk : i - j = (i - (j + 1)) + 1 := by omega
      rw [hk]
      simpa using h2

/-- The method `updateProduct` never changes the list of ids. -/
theorem ids_updateProduct (s : ProductManager) (p : Product) :
    ids (updateProduct s p) = ids s := by
  unfold updateProduct ids
  cases h : List.findIdx? (fun q => q.id = p.id) s.products with
  | none => rfl
  | some i =>
    have h2 := (set_found_map_id p s.products 0 i h).2
    simpa using h2

/-- The method `addProduct` appends exactly the new id. -/
theorem ids_addProduct (s : ProductManager) (p : Product) :
    ids (addProduct s p) = ids s ++ [p.id] := by
  simp [addProduct, ids]

/-- The method `resetForm` does not touch the collection. -/
theorem ids_resetForm (s : ProductManager) : ids (resetForm s) = ids s := rfl

/-- The method `deleteProduct` only ever removes ids. -/
theorem ids_deleteProduct_sublist (s : ProductManager) (c : Bool) (i : String) :
    (ids (deleteProduct s c i)).Sublist (ids s) := by
  by_cases hc : c = true
  · simp only [deleteProduct, hc, if_pos rfl, ids]
    exact List.Sublist.map Product.id (List.filter_sublist _)
  · simp [deleteProduct, hc]

/-- A fresh id stays untouched by the delete filter. -/
theorem filter_ne_id_eq_self (l : List Product) (a : String)
    (h : a ∉ l.map Product.id) :
    l.filter (fun p => p.id ≠ a) = l := by
  rw [List.filter_eq_self]
  intro p hp
  have hne : p.id ≠ a := fun he => h (he ▸ List.mem_map_of_mem Product.id hp)
  simpa using hne

/-- The integer ceiling division used by the code agrees with the
mathematical ceiling of the rational quotient. -/
theorem jsCeilDiv_eq_ceil (n : Nat) :
    jsCeilDiv n itemsPerPage = ⌈(n : ℚ) / (itemsPerPage : ℚ)⌉₊ := by
  unfold jsCeilDiv itemsPerPage
  rcases Nat.eq_zero_or_pos n with h | h
  · subst h; norm_num
  · rw [eq_comm, Nat.ceil_eq_iff (by omega)]
    have h6 : ((6 : ℕ) : ℚ) = 6 := by norm_num
    constructor
    · rw [lt_div_iff₀ (by norm_num : (0 : ℚ) < ((6 : ℕ) : ℚ))]
      have hlt : ((n + 6 - 1) / 6 - 1) * 6 < n := by omega
      exact_mod_cast hlt
    · rw [div_le_iff₀ (by norm_num : (0 : ℚ) < ((6 : ℕ) : ℚ))]
      have hle : n ≤ ((n + 6 - 1) / 6) * 6 := by omega
      exact_mod_cast hle

/-- Element view of the page slice. -/
theorem jsSlice_getElem (l : List Product) (start i : Nat) :
    (jsSlice l start (start + itemsPerPage))[i]? =
      if i < itemsPerPage then l[start + i]? else none := by
  unfold jsSlice
  rw [List.getElem?_drop, List.getElem?_take]
  by_cases h : i < itemsPerPage
  · rw [if_pos (by omega : start + i < start + itemsPerPage), if_pos h]
  · rw [if_neg (by omega : ¬ start + i < start + itemsPerPage), if_neg h]

/-- Unfolding `getPaginatedProducts.products`. -/
theorem paginated_products_def (s : ProductManager) :
    (getPaginatedProducts s).products =
      jsSlice (getFilteredProducts s) ((s.currentPage - 1) * itemsPerPage)
        ((s.currentPage - 1) * itemsPerPage + itemsPerPage) := rfl

/-- Unfolding `getPaginatedProducts.totalPages`. -/
theorem paginated_totalPages_def (s : ProductManager) :
    (getPaginatedProducts s).totalPages =
      jsCeilDiv (getFilteredProducts s).length itemsPerPage := rfl

/-- Unfolding `getPaginatedProducts.total`. -/
theorem paginated_total_def (s : ProductManager) :
    (getPaginatedProducts s).total = (getFilteredProducts s).length := rfl

/-- Bool-level membership for `freshRun` side conditions. -/
theorem not_contains_iff (l : List String) (a : String) :
    (!l.contains a) = true ↔ a ∉ l := by
  simp [List.contains, List.elem_iff]

/-! ### Claim theorems -/

/-- C2: performing the search operation — the term change followed by the
debounced application — always resets the current page to 1 (and every
keystroke leaves a pending timer behind, so the application always runs). -/
theorem search_resets_page (s : ProductManager) (term : List Char) :
    (handleSearch s term).debounceTimer = true ∧
    (debounceFire (handleSearch s term)).currentPage = 1 :=
  ⟨rfl, rfl⟩

/-- C3: the derived view reports the filtered count, `totalPages =
ceil(filteredCount / itemsPerPage)` (zero on an empty filtered set), and a
visible slice that is exactly the filtered products at indices
`[(page-1)*itemsPerPage, page*itemsPerPage)`; concretely, with 7 products,
an empty search term and itemsPerPage = 6, totalPages is 2 and page 2
holds exactly one product. -/
theorem pagination_spec (s : ProductManager) (i : Nat) :
    (getPaginatedProducts s).total = (getFilteredProducts s).length ∧
    (getPaginatedProducts s).totalPages =
      ⌈((getFilteredProducts s).length : ℚ) / (itemsPerPage : ℚ)⌉₊ ∧
    (getPaginatedProducts s).products[i]? =
      (if i < itemsPerPage then
        (getFilteredProducts s)[(s.currentPage - 1) * itemsPerPage + i]?
      else none) ∧
    (getPaginatedProducts s7).totalPages = 2 ∧
    (getPaginatedProducts (changePage s7 2)).products.length = 1 := by
  refine ⟨rfl, ?_, ?_, by decide, by decide⟩
  · rw [paginated_totalPages_def, jsCeilDiv_eq_ceil]
  · rw [paginated_products_def, jsSlice_getElem]

/-- C4: the method `changePage n` sets the current page to `n` exactly when
`1 ≤ n ≤ totalPages` of the current filtered set, and otherwise leaves the
whole state unchanged. -/
theorem changePage_spec (s : ProductManager) (n : ℤ) :
    (1 ≤ n ∧ n ≤ ((getPaginatedProducts s).totalPages : ℤ) →
      changePage s n = { s with currentPage := n.toNat }) ∧
    (n < 1 ∨ ((getPaginatedProducts s).totalPages : ℤ) < n →
      changePage s n = s) := by
  constructor
  · intro h
    simp [changePage, h]
  · intro h
    have hn : ¬ (1 ≤ n ∧ n ≤ ((getPaginatedProducts s).totalPages : ℤ)) := by
      rcases h with h | h <;> omega
    simp [changePage, hn]

/-- Witness for C4 at concrete inputs: on the seven-product state page 2 is
accepted while pages 0 and 3 are silently ignored. -/
theorem changePage_spec_witness :
    changePage s7 2 = { s7 with currentPage := (2 : ℤ).toNat } ∧
    changePage s7 0 = s7 ∧ changePage s7 3 = s7 :=
  ⟨(changePage_spec s7 2).1 (by decide),
   (changePage_spec s7 0).2 (by decide),
   (changePage_spec s7 3).2 (by decide)⟩

/-- C5: after a search, an empty (trimmed) term yields the full collection,
and a non-empty term yields exactly the products whose lowercased name
contains the lowercased, trimmed term as a substring. -/
theorem filter_spec (s : ProductManager) (term : List Char) :
    (jsTrim (jsToLower term) = [] →
      getFilteredProducts (handleSearch s term) = s.products) ∧
    (jsTrim (jsToLower term) ≠ [] →
      getFilteredProducts (handleSearch s term) =
        s.products.filter
          (fun p => containsSub (jsToLower p.name) (jsTrim (jsToLower term)))) := by
  constructor
  · intro h
    simp [getFilteredProducts, handleSearch, h]
  · intro h
    simp [getFilteredProducts, handleSearch, List.isEmpty_iff, h]

/-- Witness for C5: the product named "Widget" matches the search terms
"WID", "dget" and "widget", and clearing the term restores the full
collection. -/
theorem filter_spec_witness :
    getFilteredProducts (handleSearch sW ['W', 'I', 'D']) = [widget] ∧
    getFilteredProducts (handleSearch sW ['d', 'g', 'e', 't']) = [widget] ∧
    getFilteredProducts (handleSearch sW ['w', 'i', 'd', 'g', 'e', 't']) = [widget] ∧
    getFilteredProducts (handleSearch sW []) = sW.products :=
  ⟨((filter_spec sW ['W', 'I', 'D']).2 (by decide)).trans (by decide),
   ((filter_spec sW ['d', 'g', 'e', 't']).2 (by decide)).trans (by decide),
   ((filter_spec sW ['w', 'i', 'd', 'g', 'e', 't']).2 (by decide)).trans
     (by decide),
   (filter_spec sW []).1 (by decide)⟩

/-- C6: a submit whose draft fails any required-field, price or stock check
is rejected and leaves the whole state (collection and session) unchanged. -/
theorem submit_rejects_invalid (s : ProductManager) (now : Nat) (d : Draft)
    (h : validateField .name true d.name = false ∨
         validateField .price true d.price = false ∨
         validateField .category true d.category = false ∨
         validateField .stock true d.stock = false) :
    handleFormSubmit s now d = s := by
  apply submit_invalid_eq
  unfold validateForm
  rcases h with h | h | h | h <;> simp [h]

/-- Witness for C6: a draft with price "-5" fails validation on the price
field and the submit leaves the initial state unchanged. -/
theorem submit_rejects_invalid_witness :
    validateField .price true dneg.price = false ∧
    handleFormSubmit initState 1 dneg = initState :=
  ⟨by with_unfolding_all decide,
   submit_rejects_invalid initState 1 dneg (Or.inr (Or.inl (by with_unfolding_all decide)))⟩

/-- C7: the method `editProduct` enters `Editing(id)` exactly when a product with that
id exists (and is a silent no-op otherwise); a valid submit while
`Editing(id)` runs `updateProduct` with that very id — not a fresh one —
and the state returns to create mode. -/
theorem edit_session_spec (s : ProductManager) (id : String) (d : Draft)
    (now : Nat) :
    ((∃ p ∈ s.products, p.id = id) →
      editProduct s id = { s with editingId := some id }) ∧
    ((∀ p ∈ s.products, p.id ≠ id) → editProduct s id = s) ∧
    (s.editingId = some id → validateForm d = true →
      handleFormSubmit s now d =
        resetForm (updateProduct s (draftToProduct id d)) ∧
      (handleFormSubmit s now d).editingId = none) := by
  refine ⟨?_, ?_, ?_⟩
  · rintro ⟨p, hp, hid⟩
    unfold editProduct
    cases hfind : s.products.find? (fun q => q.id = id) with
    | none =>
      rw [List.find?_eq_none] at hfind
      exact absurd (by simpa using hid) (by simpa using hfind p hp)
    | some q => rfl
  · intro h
    unfold editProduct
    cases hfind : s.products.find? (fun q => q.id = id) with
    | none => rfl
    | some q =>
      have hq := List.find?_some hfind
      have hmem := List.mem_of_find?_eq_some hfind
      exact absurd (by simpa using hq) (h q hmem)
  · intro hc hv
    refine ⟨submit_edit_eq s now d id hv hc, ?_⟩
    rw [submit_edit_eq s now d id hv hc]
    rfl

/-- Witness for C7: editing the existing Widget id "1" then submitting a
valid draft updates in place with id "1" and returns to create mode, while
editing the absent id "9" is a no-op. -/
theorem edit_session_spec_witness :
    editProduct sW "1" = { sW with editingId := some "1" } ∧
    editProduct sW "9" = sW ∧
    handleFormSubmit (editProduct sW "1") 99 vd =
      resetForm (updateProduct (editProduct sW "1") (draftToProduct "1" vd)) ∧
    (handleFormSubmit (editProduct sW "1") 99 vd).editingId = none :=
  ⟨(edit_session_spec sW "1" vd 99).1 (by with_unfolding_all decide),
   (edit_session_spec sW "9" vd 99).2.1 (by with_unfolding_all decide),
   ((edit_session_spec (editProduct sW "1") "1" vd 99).2.2 (by with_unfolding_all decide)
     (by with_unfolding_all decide)).1,
   ((edit_session_spec (editProduct sW "1") "1" vd 99).2.2 (by with_unfolding_all decide)
     (by with_unfolding_all decide)).2⟩

/-- C8 as stated fails on the code: with a product of id "5" already in the
collection, a submit at clock value 5 adds a colliding id and the following
delete filters out both copies, so the pre-add collection is not restored. -/
theorem add_delete_not_roundtrip :
    (deleteProduct (handleFormSubmit s5 5 vd) true (Nat.repr 5)).products ≠
      s5.products := by with_unfolding_all decide

/-- C8 (amended): provided the id assigned by the add does not collide with
an id already in the collection, an add followed immediately by a delete of
that id restores the collection to exactly its pre-add contents. -/
theorem add_delete_roundtrip (s : ProductManager) (now : Nat) (d : Draft)
    (hc : s.editingId = none) (hv : validateForm d = true)
    (hfresh : Nat.repr now ∉ ids s) :
    (deleteProduct (handleFormSubmit s now d) true (Nat.repr now)).products =
      s.products := by
  rw [submit_create_eq s now d hv hc]
  show ((s.products ++ [draftToProduct (Nat.repr now) d]).filter
      (fun p => p.id ≠ Nat.repr now)) = s.products
  rw [List.filter_append, filter_ne_id_eq_self s.products (Nat.repr now) hfresh]
  simp [draftToProduct]

/-- Witness for C8 (amended): adding at clock value 7 to the state already
holding id "5", then deleting id "7", restores the one-product collection. -/
theorem add_delete_roundtrip_witness :
    (deleteProduct (handleFormSubmit s5 7 vd) true (Nat.repr 7)).products =
      s5.products :=
  add_delete_roundtrip s5 7 vd (by with_unfolding_all decide) (by with_unfolding_all decide) (by with_unfolding_all decide)

/-- C9: within one quiet window (keystrokes with no timer expiry between
them) each keystroke replaces the single pending application, so a burst of
keystrokes followed by the timer firing produces exactly one derived-view
recomputation, and it uses the (lowercased, trimmed) last term typed. -/
theorem debounce_last_wins (t : SearchSession) (ts : List (List Char))
    (h : ts ≠ []) :
    (runSearch t
        (ts.map SearchEvent.keystroke ++ [SearchEvent.timerFire])).renderCount
      = t.renderCount + 1 ∧
    (runSearch t
        (ts.map SearchEvent.keystroke ++ [SearchEvent.timerFire])).lastApplied
      = some (jsTrim (jsToLower (ts.getLast h))) := by
  induction ts generalizing t with
  | nil => exact absurd rfl h
  | cons x rest ih =>
    cases rest with
    | nil => exact ⟨rfl, rfl⟩
    | cons y rest2 =>
      have h2 : y :: rest2 ≠ [] := by simp
      have hstep :
          runSearch t
              ((x :: y :: rest2).map SearchEvent.keystroke ++
                [SearchEvent.timerFire])
            = runSearch { t with pm := handleSearch t.pm x }
                ((y :: rest2).map SearchEvent.keystroke ++
                  [SearchEvent.timerFire]) := rfl
      have hlast : (x :: y :: rest2).getLast h = (y :: rest2).getLast h2 :=
        List.getLast_cons h2
      rw [hstep, hlast]
      exact ih { t with pm := handleSearch t.pm x } h2

/-- Witness for C9: rapid input "a", "ab", "abc" followed by the timer
firing yields exactly one recomputation, and it uses "abc". -/
theorem debounce_last_wins_witness :
    (runSearch sess0 [.keystroke ['a'], .keystroke ['a', 'b'],
        .keystroke ['a', 'b', 'c'], .timerFire]).renderCount = 1 ∧
    (runSearch sess0 [.keystroke ['a'], .keystroke ['a', 'b'],
        .keystroke ['a', 'b', 'c'], .timerFire]).lastApplied =
      some ['a', 'b', 'c'] := by
  have h := debounce_last_wins sess0 [['a'], ['a', 'b'], ['a', 'b', 'c']]
    (by simp)
  exact ⟨h.1, h.2.trans (by decide)⟩

/-- C10: the methods `updateProduct` and `deleteProduct` leave the page, search
term and view mode untouched; consequently, when a mutation shrinks the
filtered set, the page can exceed the new `totalPages`, and whenever
`totalPages < currentPage` the visible slice is empty. -/
theorem delete_update_frame (s : ProductManager) (p : Product) (c : Bool)
    (id : String) :
    ((updateProduct s p).currentPage = s.currentPage ∧
     (updateProduct s p).searchTerm = s.searchTerm ∧
     (updateProduct s p).currentView = s.currentView) ∧
    ((deleteProduct s c id).currentPage = s.currentPage ∧
     (deleteProduct s c id).searchTerm = s.searchTerm ∧
     (deleteProduct s c id).currentView = s.currentView) ∧
    ((getPaginatedProducts s).totalPages < s.currentPage →
      (getPaginatedProducts s).products = []) := by
  refine ⟨?_, ?_, ?_⟩
  · unfold updateProduct
    cases s.products.findIdx? (fun q => q.id = p.id) <;> exact ⟨rfl, rfl, rfl⟩
  · unfold deleteProduct
    cases c <;> exact ⟨rfl, rfl, rfl⟩
  · intro h
    rw [paginated_totalPages_def] at h
    rw [paginated_products_def]
    unfold jsSlice
    rw [List.drop_eq_nil_iff, List.length_take]
    have hlen :
        (getFilteredProducts s).length ≤ (s.currentPage - 1) * itemsPerPage := by
      unfold jsCeilDiv itemsPerPage at h
      unfold itemsPerPage
      omega
    exact le_trans (min_le_right _ _) hlen

/-- Witness for C10: deleting one product from the seven-product state
viewed on page 2 keeps the page at 2, after which `totalPages` is 1 and
the visible slice is empty. -/
theorem delete_update_frame_witness :
    (deleteProduct s7p2 true (Nat.repr 0)).currentPage = s7p2.currentPage ∧
    (getPaginatedProducts (deleteProduct s7p2 true (Nat.repr 0))).totalPages <
      (deleteProduct s7p2 true (Nat.repr 0)).currentPage ∧
    (getPaginatedProducts (deleteProduct s7p2 true (Nat.repr 0))).products =
      [] :=
  ⟨(delete_update_frame s7p2 widget true (Nat.repr 0)).2.1.1,
   by decide,
   (delete_update_frame (deleteProduct s7p2 true (Nat.repr 0)) widget true
      "x").2.2 (by decide)⟩

/-- C1 as stated fails on the code: ids come from `Date.now().toString()`
with no collision check, so two adds at the same clock value (here 5)
leave two products with id "5" in the collection. -/
theorem add_ids_can_collide :
    ¬ (ids (runOps initState [.add 5 vd, .add 5 vd])).Nodup := by
  with_unfolding_all decide

/-- C1 (amended): starting from a duplicate-free collection, a sequence of
add/update/delete operations keeps every product id unique provided each
add's clock id is fresh for the collection it meets (`freshRun`) — which
holds in particular whenever the millisecond clock ticks between adds. -/
theorem run_ids_nodup (ops : List CatalogOp) (s : ProductManager)
    (hnd : (ids s).Nodup) (hf : freshRun s ops = true) :
    (ids (runOps s ops)).Nodup := by
  induction ops generalizing s with
  | nil => exact hnd
  | cons op rest ih =>
    simp only [freshRun, Bool.and_eq_true] at hf
    obtain ⟨h1, h2⟩ := hf
    show (ids (runOps (applyOp s op) rest)).Nodup
    apply ih
    · cases op with
      | add now d =>
        by_cases hv : validateForm d = true
        · have heq :
              ids (applyOp s (CatalogOp.add now d)) = ids s ++ [Nat.repr now] := by
            show ids (handleFormSubmit { s with editingId := none } now d) = _
            rw [submit_create_eq { s with editingId := none } now d hv rfl,
              ids_resetForm, ids_addProduct]
            rfl
          rw [heq, List.nodup_append]
          refine ⟨hnd, List.nodup_singleton _, ?_⟩
          rw [List.disjoint_singleton]
          exact (not_contains_iff (ids s) (Nat.repr now)).mp h1
        · have hv' : validateForm d = false := by
            revert hv; cases validateForm d <;> simp
          have heq : applyOp s (CatalogOp.add now d) =
              { s with editingId := none } :=
            submit_invalid_eq { s with editingId := none } now d hv'
          rw [heq]
          exact hnd
      | update p => exact (ids_updateProduct s p) ▸ hnd
      | delete c i => exact (ids_deleteProduct_sublist s c i).nodup hnd
    · exact h2

/-- Witness for C1 (amended): adds at the distinct clock values 5 and 6
followed by an update and a delete keep the id list duplicate-free. -/
theorem run_ids_nodup_witness :
    (ids (runOps initState
      [.add 5 vd, .add 6 vd, .update widget, .delete true "5"])).Nodup :=
  run_ids_nodup [.add 5 vd, .add 6 vd, .update widget, .delete true "5"]
    initState List.nodup_nil (by with_unfolding_all decide)
